import Mathlib

/-!
Verification of the NFL score-prediction pipeline (`src/scripts/main2.py`).

The pipeline is embedded shallowly: pandas data frames become lists of
structures over `ℚ` (exact rational arithmetic standing for the float
computations), numeric statistics are modelled per column (every base
statistic column is transformed by the same code path, so one generic
column faithfully represents each of them), and the pandas primitives
used by the source (`groupby(...).mean()`, `rolling(...).mean()`,
`np.argmin`, Python `%` and `//` on floats) are given explicit list-level
definitions.
-/

namespace NFLPred

/-- pandas `Series.mean()` over a list of values (the source never takes a
mean of an empty frame on the paths verified here; `ℚ` division by zero
yields `0` but is never reached under the stated hypotheses). -/
def listMean (xs : List ℚ) : ℚ := xs.sum / xs.length

/-! ## Opponent Adjustment Engine (`add_matchup_adjusted_features`)

One row of the rolling-stat frame `hist_merged`, restricted to the fields
read by `add_matchup_adjusted_features`.  `stat` is the row's value in one
generic base-statistic column (the function applies the identical
computation to every column of `base_feature_cols`). -/
structure Row where
  team : String
  opp : String
  season : ℤ
  stat : ℚ
deriving DecidableEq, Repr

/-- The filter `df[(df['team']==row['opp']) & (df['season']<row['season'])]`
from line 101 of the source. -/
def priorOppRows (df : List Row) (r : Row) : List Row :=
  df.filter (fun x => x.team = r.opp ∧ x.season < r.season)

/-- Teams present in a frame, as pandas `groupby('team')` group keys.
pandas orders groups by sorted key; in the one use site the frame has been
filtered to `team == row['opp']`, so there is at most one group and the
order convention is immaterial; we take keys in order of first occurrence. -/
def teamKeys (rows : List Row) : List String := (rows.map Row.team).dedup

/-- The mean of the generic statistic column within one `groupby('team')`
group. -/
def groupMean (rows : List Row) (t : String) : ℚ :=
  listMean ((rows.filter (fun x => x.team = t)).map Row.stat)

/-- `rows.groupby('team')[col].mean()` followed by `.iloc[-1]` (the last
group's mean); `none` models `opp_stats.empty` (line 102). -/
def groupbyTeamMeanLast (rows : List Row) : Option ℚ :=
  (teamKeys rows).getLast?.map (groupMean rows)

/-- The per-row body of `add_matchup_adjusted_features` (lines 100-105) for
the generic statistic column: the value written to `row[col + "_vs_opp"]`.
`df` is the full frame the function iterates over. -/
def vsOppDelta (df : List Row) (r : Row) : ℚ :=
  match groupbyTeamMeanLast (priorOppRows df r) with
  | some m => r.stat - m
  | none => r.stat - listMean (df.map Row.stat)

/-- Modelled from the spec (section 4.3), for comparison with `vsOppDelta`:
the spec selects the chronologically **last** prior-season row of the
opponent as the baseline, rather than a mean over all such rows. -/
def vsOppDeltaLastRow (df : List Row) (r : Row) : ℚ :=
  match (priorOppRows df r).getLast? with
  | some x => r.stat - x.stat
  | none => r.stat - listMean (df.map Row.stat)

lemma dedup_eq_singleton_of_forall_eq {α : Type} [DecidableEq α] (a : α) :
    ∀ l : List α, l ≠ [] → (∀ x ∈ l, x = a) → l.dedup = [a]
  | [], h, _ => absurd rfl h
  | x :: xs, _, hall => by
    have hx : x = a := hall x (List.mem_cons_self x xs)
    subst hx
    rcases eq_or_ne xs [] with h | h
    · subst h; simp
    · have hxs : xs.dedup = [x] :=
        dedup_eq_singleton_of_forall_eq x xs h
          (fun y hy => hall y (List.mem_cons_of_mem x hy))
      have hmem : x ∈ xs := by
        rcases List.exists_mem_of_ne_nil xs h with ⟨y, hy⟩
        have := hall y (List.mem_cons_of_mem x hy)
        exact this ▸ hy
      rw [List.dedup_cons_of_mem hmem, hxs]

lemma priorOppRows_team (df : List Row) (r : Row) :
    ∀ x ∈ priorOppRows df r, x.team = r.opp := by
  intro x hx
  have := List.of_mem_filter hx
  exact (of_decide_eq_true this).1

lemma groupbyTeamMeanLast_prior (df : List Row) (r : Row)
    (h : priorOppRows df r ≠ []) :
    groupbyTeamMeanLast (priorOppRows df r) =
      some (listMean ((priorOppRows df r).map Row.stat)) := by
  have hkeys : teamKeys (priorOppRows df r) = [r.opp] := by
    apply dedup_eq_singleton_of_forall_eq
    · simpa using h
    · intro x hx
      rcases List.mem_map.mp hx with ⟨y, hy, rfl⟩
      exact priorOppRows_team df r y hy
  have hfilter : (priorOppRows df r).filter (fun x => x.team = r.opp)
      = priorOppRows df r := by
    apply List.filter_eq_self.mpr
    intro x hx
    exact decide_eq_true (priorOppRows_team df r x hx)
  rw [groupbyTeamMeanLast, hkeys]
  simp [groupMean, hfilter]

/-- C1: the claim asserts that when the opponent has at least one
prior-season row, the baseline is the chronologically **last** such row's
statistic.  In the source the baseline is the `groupby('team').mean()`
over *all* such rows (`iloc[-1]` picks the last group, and the filter on
`team == row['opp']` leaves a single group); on a frame where the
opponent's two prior rows have statistics 0 and 10, the code's delta is
5 - (0+10)/2 = 0 while the claimed last-row rule gives 5 - 10 = -5. -/
theorem vsOppDelta_ne_lastRow_baseline :
    vsOppDelta [⟨"O", "T", 1, 0⟩, ⟨"O", "T", 2, 10⟩, ⟨"T", "O", 3, 5⟩]
        ⟨"T", "O", 3, 5⟩
      ≠ vsOppDeltaLastRow [⟨"O", "T", 1, 0⟩, ⟨"O", "T", 2, 10⟩, ⟨"T", "O", 3, 5⟩]
        ⟨"T", "O", 3, 5⟩ := by
  norm_num [vsOppDelta, vsOppDeltaLastRow, groupbyTeamMeanLast, priorOppRows,
    teamKeys, groupMean, listMean, List.filter, List.dedup]

/-- C1 (amended): for every row R with team T, opponent O and season S such
that at least one row exists with team == O and season < S, the opponent
baseline is the **mean of all** such prior-season rows of O (the single
group produced by the `groupby` over the season-filtered frame), and the
delta equals R's own rolling statistic minus that mean. -/
theorem vsOppDelta_prior_mean_baseline (df : List Row) (r : Row)
    (h : priorOppRows df r ≠ []) :
    vsOppDelta df r
      = r.stat - ((priorOppRows df r).map Row.stat).sum
          / ((priorOppRows df r).length : ℚ) := by
  rw [vsOppDelta, groupbyTeamMeanLast_prior df r h]
  simp [listMean]

/-- C1 witness: the amended rule evaluated on the three-row frame above. -/
theorem vsOppDelta_prior_mean_baseline_witness :
    priorOppRows [⟨"O", "T", 1, 0⟩, ⟨"O", "T", 2, 10⟩, ⟨"T", "O", 3, 5⟩]
        ⟨"T", "O", 3, 5⟩ ≠ [] ∧
    vsOppDelta [⟨"O", "T", 1, 0⟩, ⟨"O", "T", 2, 10⟩, ⟨"T", "O", 3, 5⟩]
        ⟨"T", "O", 3, 5⟩
      = (⟨"T", "O", 3, 5⟩ : Row).stat
          - ((priorOppRows [⟨"O", "T", 1, 0⟩, ⟨"O", "T", 2, 10⟩, ⟨"T", "O", 3, 5⟩]
              ⟨"T", "O", 3, 5⟩).map Row.stat).sum
            / ((priorOppRows [⟨"O", "T", 1, 0⟩, ⟨"O", "T", 2, 10⟩, ⟨"T", "O", 3, 5⟩]
              ⟨"T", "O", 3, 5⟩).length : ℚ) :=
  ⟨by decide,
   vsOppDelta_prior_mean_baseline _ _ (by decide)⟩

lemma priorOppRows_eq_of_agree_past (df1 df2 : List Row) (r : Row)
    (hkeep : df1.filter (fun x => ¬(x.team = r.opp ∧ r.season ≤ x.season))
           = df2.filter (fun x => ¬(x.team = r.opp ∧ r.season ≤ x.season))) :
    priorOppRows df1 r = priorOppRows df2 r := by
  have key : ∀ df : List Row, priorOppRows df r
      = List.filter (fun x => decide (x.team = r.opp ∧ x.season < r.season))
          (df.filter (fun x => decide ¬(x.team = r.opp ∧ r.season ≤ x.season))) := by
    intro df
    rw [List.filter_filter, priorOppRows]
    apply List.filter_congr
    intro x _
    by_cases hp : x.team = r.opp ∧ x.season < r.season
    · have hk : ¬(x.team = r.opp ∧ r.season ≤ x.season) :=
        fun hc => absurd hc.2 (not_le.mpr hp.2)
      simp [hp, hk]
    · simp [hp]
  rw [key df1, key df2, hkeep]

/-- C2: the claim asserts the adjusted delta never depends on opponent rows
with season ≥ S.  In the fallback branch (no prior-season opponent data) the
source subtracts `df[base_feature_cols].mean()`, the mean over the **whole**
frame — which includes the opponent's current-season rows: two frames that
differ only in the opponent's season-1 statistic (9 versus 1, with the
query row having season 1) give deltas 5 - 7 = -2 and 5 - 3 = 2. -/
theorem vsOppDelta_fallback_future_dependence :
    ([⟨"T", "O", 1, 5⟩, ⟨"O", "T", 1, 9⟩] : List Row).filter
        (fun x => ¬(x.team = "O" ∧ (1 : ℤ) ≤ x.season))
      = ([⟨"T", "O", 1, 5⟩, ⟨"O", "T", 1, 1⟩] : List Row).filter
        (fun x => ¬(x.team = "O" ∧ (1 : ℤ) ≤ x.season)) ∧
    vsOppDelta [⟨"T", "O", 1, 5⟩, ⟨"O", "T", 1, 9⟩] ⟨"T", "O", 1, 5⟩
      ≠ vsOppDelta [⟨"T", "O", 1, 5⟩, ⟨"O", "T", 1, 1⟩] ⟨"T", "O", 1, 5⟩ := by
  constructor
  · decide
  · norm_num [vsOppDelta, groupbyTeamMeanLast, priorOppRows, teamKeys,
      groupMean, listMean, List.filter, List.dedup]

/-- C2 (amended): whenever the opponent has at least one row with
season < S, the adjusted delta for a row depends only on opponent data with
season < S: two frames that agree outside the opponent's season-≥-S rows
(and whose prior-season opponent data is nonempty) give identical deltas.
In the fallback case the delta goes through the whole-frame mean and *can*
depend on the opponent's season-≥-S rows. -/
theorem vsOppDelta_no_future_leakage (df1 df2 : List Row) (r : Row)
    (hkeep : df1.filter (fun x => ¬(x.team = r.opp ∧ r.season ≤ x.season))
           = df2.filter (fun x => ¬(x.team = r.opp ∧ r.season ≤ x.season)))
    (h : priorOppRows df1 r ≠ []) :
    vsOppDelta df1 r = vsOppDelta df2 r := by
  have hp := priorOppRows_eq_of_agree_past df1 df2 r hkeep
  have h2 : priorOppRows df2 r ≠ [] := hp ▸ h
  rw [vsOppDelta, vsOppDelta, groupbyTeamMeanLast_prior df1 r h,
    groupbyTeamMeanLast_prior df2 r h2, hp]

/-- C2 witness: a frame with one prior-season opponent row, and a second
frame with the opponent's current-season row removed, give the same delta. -/
theorem vsOppDelta_no_future_leakage_witness :
    ([⟨"O", "T", 1, 4⟩, ⟨"T", "O", 2, 5⟩, ⟨"O", "T", 2, 9⟩] : List Row).filter
        (fun x => ¬(x.team = "O" ∧ (2 : ℤ) ≤ x.season))
      = ([⟨"O", "T", 1, 4⟩, ⟨"T", "O", 2, 5⟩] : List Row).filter
        (fun x => ¬(x.team = "O" ∧ (2 : ℤ) ≤ x.season)) ∧
    priorOppRows [⟨"O", "T", 1, 4⟩, ⟨"T", "O", 2, 5⟩, ⟨"O", "T", 2, 9⟩]
        ⟨"T", "O", 2, 5⟩ ≠ [] ∧
    vsOppDelta [⟨"O", "T", 1, 4⟩, ⟨"T", "O", 2, 5⟩, ⟨"O", "T", 2, 9⟩]
        ⟨"T", "O", 2, 5⟩
      = vsOppDelta [⟨"O", "T", 1, 4⟩, ⟨"T", "O", 2, 5⟩] ⟨"T", "O", 2, 5⟩ :=
  ⟨by decide, by decide,
   vsOppDelta_no_future_leakage _ _ _ (by decide) (by decide)⟩

/-- C3: for every row whose opponent has no row with season < S, the
adjusted delta equals the row's own rolling statistic minus the mean of
that statistic over the entire input frame (all teams, all seasons). -/
theorem vsOppDelta_global_mean_fallback (df : List Row) (r : Row)
    (h : ∀ x ∈ df, ¬(x.team = r.opp ∧ x.season < r.season)) :
    vsOppDelta df r = r.stat - (df.map Row.stat).sum / (df.length : ℚ) := by
  have hnil : priorOppRows df r = [] := by
    rw [priorOppRows, List.filter_eq_nil_iff]
    intro x hx
    simpa using h x hx
  rw [vsOppDelta, hnil]
  simp [groupbyTeamMeanLast, teamKeys, listMean]

/-- C3 witness: opponent CC has zero prior-season rows, so the delta is the
row's statistic minus the whole-frame mean: 5 - (5+9)/2 = -2. -/
theorem vsOppDelta_global_mean_fallback_witness :
    (∀ x ∈ ([⟨"T", "CC", 1, 5⟩, ⟨"CC", "T", 1, 9⟩] : List Row),
      ¬(x.team = "CC" ∧ x.season < (1 : ℤ))) ∧
    vsOppDelta [⟨"T", "CC", 1, 5⟩, ⟨"CC", "T", 1, 9⟩] ⟨"T", "CC", 1, 5⟩
      = (⟨"T", "CC", 1, 5⟩ : Row).stat
          - (([⟨"T", "CC", 1, 5⟩, ⟨"CC", "T", 1, 9⟩] : List Row).map Row.stat).sum
            / (([⟨"T", "CC", 1, 5⟩, ⟨"CC", "T", 1, 9⟩] : List Row).length : ℚ) :=
  ⟨by decide, vsOppDelta_global_mean_fallback _ _ (by decide)⟩

/-! ## Score Blender / Rounder (`blend_common_score`, lines 191-201) -/

/-- `np.argmin` on a list of values: the index of the first occurrence of
the minimum. -/
def npArgmin (xs : List ℚ) : ℕ :=
  (xs.enum.foldl (fun best cur => if cur.2 < best.2 then cur else best)
    (0, xs.headD 0)).1

/-- `multiples = np.array([3, 7])` (line 199). -/
def multiples : List ℚ := [3, 7]

/-- Python float `%` with positive modulus: `s % m = s - m * ⌊s / m⌋`. -/
def pymod (s m : ℚ) : ℚ := s - m * ⌊s / m⌋

/-- Python float `//`: `s // m` is `⌊s / m⌋` as a number. -/
def pyfloordiv (s m : ℚ) : ℚ := ⌊s / m⌋

/-- The snap step (line 200):
`multiples[np.abs(multiples - (score % 10)).argmin()] + 10 * (score // 10)`. -/
def snapScore (s : ℚ) : ℚ :=
  multiples.getD (npArgmin (multiples.map (fun m => |m - pymod s 10|))) 0
    + 10 * pyfloordiv s 10

/-- `blend_common_score` (lines 191-201): blend toward the team's most
common historical score when one exists, add the fixed points, then snap.
`common_scores` models the pandas Series `team_common_scores` (membership
test `team in team_common_scores` checks the index). -/
def blend_common_score (common_scores : String → Option ℚ)
    (blend_common add_points : ℚ) (team : String) (score : ℚ) : ℚ :=
  let s1 := match common_scores team with
    | some common => score * (1 - blend_common) + common * blend_common
    | none => score
  snapScore (s1 + add_points)

lemma snapScore_eq (s : ℚ) :
    snapScore s
      = (if |7 - pymod s 10| < |3 - pymod s 10| then 7 else 3)
          + 10 * pyfloordiv s 10 := by
  rw [snapScore]
  simp only [multiples, List.map, List.enum, npArgmin]
  by_cases h : |7 - pymod s 10| < |3 - pymod s 10| <;>
    simp [List.enumFrom, h, lt_irrefl]

lemma pymod_bounds (s : ℚ) : 0 ≤ pymod s 10 ∧ pymod s 10 < 10 := by
  have h1 : ((⌊s / 10⌋ : ℤ) : ℚ) ≤ s / 10 := Int.floor_le _
  have h2 : s / 10 < (⌊s / 10⌋ : ℚ) + 1 := Int.lt_floor_add_one _
  constructor <;> rw [pymod] <;> nlinarith [h1, h2]

/-- C5: writing the input `s` as `10*q + r` with `q = ⌊s/10⌋` and
`r = s % 10 ∈ [0,10)`, the snap step returns `10*q + c` where `c ∈ {3, 7}`
is at least as close to `r` as either candidate (so it is the numerically
closest one), with `c = 3` on the equidistant case `r = 5`; consequently
the result is `10*k + 3` or `10*k + 7` for an integer `k`. -/
theorem snapScore_spec (s : ℚ) :
    0 ≤ pymod s 10 ∧ pymod s 10 < 10 ∧
    (∃ c : ℚ, (c = 3 ∨ c = 7) ∧
      |c - pymod s 10| ≤ |3 - pymod s 10| ∧
      |c - pymod s 10| ≤ |7 - pymod s 10| ∧
      (pymod s 10 = 5 → c = 3) ∧
      snapScore s = 10 * pyfloordiv s 10 + c) ∧
    ∃ k : ℤ, snapScore s = 10 * k + 3 ∨ snapScore s = 10 * k + 7 := by
  obtain ⟨hb0, hb1⟩ := pymod_bounds s
  refine ⟨hb0, hb1, ?_, ?_⟩
  · by_cases h : |7 - pymod s 10| < |3 - pymod s 10|
    · refine ⟨7, Or.inr rfl, le_of_lt h, le_refl _, ?_, ?_⟩
      · intro h5; rw [h5] at h; norm_num at h
      · rw [snapScore_eq, if_pos h]; ring
    · exact ⟨3, Or.inl rfl, le_refl _, not_lt.mp h, fun _ => rfl,
        by rw [snapScore_eq, if_neg h]; ring⟩
  · refine ⟨⌊s / 10⌋, ?_⟩
    rw [snapScore_eq, pyfloordiv]
    by_cases h : |7 - pymod s 10| < |3 - pymod s 10|
    · rw [if_pos h]; right; ring
    · rw [if_neg h]; left; ring

/-- C6: for a team with no CommonScore entry, the blending step is skipped
(the raw score passes through unchanged) while the add-points and snap
steps still apply: the output is the snap step applied to the raw score
plus the additive constant. -/
theorem blend_common_score_skips_blending (common_scores : String → Option ℚ)
    (blend_common add_points : ℚ) (team : String) (score : ℚ)
    (h : common_scores team = none) :
    blend_common_score common_scores blend_common add_points team score
      = snapScore (score + add_points) := by
  rw [blend_common_score, h]

/-- C6 witness: with an empty CommonScore table and the default constants
(blend weight 0.3, add 3), a raw score of 20 maps to `snapScore 23 = 23`. -/
theorem blend_common_score_skips_blending_witness :
    (fun (_ : String) => (none : Option ℚ)) "ZZ" = none ∧
    blend_common_score (fun _ => none) (3 / 10) 3 "ZZ" 20
      = snapScore (20 + 3) ∧
    snapScore (20 + 3) = 23 :=
  ⟨rfl,
   blend_common_score_skips_blending (fun _ => none) (3 / 10) 3 "ZZ" 20 rfl,
   by norm_num [snapScore, npArgmin, multiples, pymod, pyfloordiv, List.enum,
     List.enumFrom]⟩

/-! ## Rolling Stat Tracker (`compute_rolling_team_stats`, lines 78-88) -/

/-- pandas `Series.rolling(window=W, min_periods=1).mean()` applied to one
team's chronologically ordered statistic column (line 85): entry `i` is
the mean of the trailing window ending at row `i`. -/
def rollingMean (W : ℕ) (xs : List ℚ) : List ℚ :=
  (List.range xs.length).map
    (fun i => listMean ((xs.take (i + 1)).drop (i + 1 - W)))

lemma rollingMean_get? (W : ℕ) (xs : List ℚ) (i : ℕ) (hi : i < xs.length) :
    (rollingMean W xs).get? i
      = some (listMean ((xs.take (i + 1)).drop (i + 1 - W))) := by
  rw [rollingMean, List.get?_map, List.get?_range hi]
  rfl

/-- C7: for a team's ordered game sequence, the rolling stat at position
`i` is the trailing moving average of the most recent `min(i+1, W)` raw
values (inclusive of the current row) — stated via `rtake W`, the last `W`
elements of the first `i+1` values, whose length is `min(i+1, W)`; only one
observation is required, so the first position equals its own raw value,
and with window `W = 1` the transform is the identity. -/
theorem rollingMean_spec (W : ℕ) (xs : List ℚ) (hW : 0 < W) :
    (rollingMean W xs).length = xs.length ∧
    (∀ i, i < xs.length →
      (rollingMean W xs).get? i = some (listMean ((xs.take (i + 1)).rtake W)) ∧
      ((xs.take (i + 1)).rtake W).length = min (i + 1) W) ∧
    (xs ≠ [] → (rollingMean W xs).get? 0 = xs.get? 0) ∧
    rollingMean 1 xs = xs := by
  have hwin : ∀ i, i < xs.length →
      (xs.take (i + 1)).rtake W = (xs.take (i + 1)).drop (i + 1 - W) := by
    intro i hi
    simp only [List.rtake, List.length_take]
    congr 1
    omega
  refine ⟨by simp [rollingMean], ?_, ?_, ?_⟩
  · intro i hi
    refine ⟨by rw [rollingMean_get? W xs i hi, hwin i hi], ?_⟩
    rw [List.rtake, List.length_drop, List.length_take]
    omega
  · intro hne
    rcases xs with _ | ⟨a, tl⟩
    · exact absurd rfl hne
    · have h0 : 0 < (a :: tl).length := by simp
      rw [rollingMean_get? W (a :: tl) 0 h0]
      have h1W : (1 : ℕ) - W = 0 := by omega
      simp [h1W, listMean]
  · apply List.ext_get
    · simp [rollingMean]
    · intro n h1 h2
      have hn : n < xs.length := h2
      have hd := List.drop_eq_get_cons (l := xs) (n := n) hn
      have hdt : (xs.take (n + 1)).drop (n + 1 - 1) = [xs.get ⟨n, hn⟩] := by
        rw [Nat.add_sub_cancel, List.drop_take]
        have hone : n + 1 - n = 1 := by omega
        rw [hone, hd, List.take_succ_cons, List.take_zero]
      have e1 := rollingMean_get? 1 xs n hn
      rw [List.get?_eq_get h1] at e1
      have e2 := Option.some.inj e1
      rw [e2, hdt]
      simp [listMean]

/-- C7 witness: the window-1 rolling transform on the column `[2, 4]`. -/
theorem rollingMean_spec_witness :
    (0 : ℕ) < 1 ∧
    ((rollingMean 1 [2, 4]).length = ([2, 4] : List ℚ).length ∧
     (∀ i, i < ([2, 4] : List ℚ).length →
       (rollingMean 1 [2, 4]).get? i
         = some (listMean ((([2, 4] : List ℚ).take (i + 1)).rtake 1)) ∧
       ((([2, 4] : List ℚ).take (i + 1)).rtake 1).length = min (i + 1) 1) ∧
     (([2, 4] : List ℚ) ≠ [] →
       (rollingMean 1 [2, 4]).get? 0 = ([2, 4] : List ℚ).get? 0) ∧
     rollingMean 1 [2, 4] = [2, 4]) :=
  ⟨by decide, rollingMean_spec 1 [2, 4] (by decide)⟩

/-! ## Prediction features (`make_prediction_df`, lines 157-183) -/

/-- The base statistic columns (`base_feature_cols`, lines 73-76). -/
inductive Col
  | plays
  | total_epa
  | avg_epa
  | yards
  | tds
  | passes
  | rushes
  | turnovers
  | fumbles
  | third_down_pct
  | fourth_down_pct
  | red_zone_plays
deriving DecidableEq, Repr

/-- `HOME_FIELD_ADV = 2.5` (line 157). -/
def HOME_FIELD_ADV : ℚ := 5 / 2

/-- One per-team prediction feature row: the base columns and the
`_vs_opp` columns written by the loop body of `make_prediction_df`. -/
structure PredEntry where
  base : Col → ℚ
  vsOpp : Col → ℚ

/-- The base-feature assignment (lines 167-174): for a team present in
`team_baselines`, each column is `baseline - opp_adj` where `opp_adj` is
the opponent's baseline (0 when the opponent is absent from the table);
for an absent team, the mean of the column over the recent games. -/
def mkBase (team_baselines : String → Option (Col → ℚ))
    (recentMean : Col → ℚ) (team opp : String) : Col → ℚ :=
  fun col =>
    match team_baselines team with
    | some b =>
        b col - (match team_baselines opp with
                 | some bo => bo col
                 | none => 0)
    | none => recentMean col

/-- The full per-team feature row (lines 166-181): base assignment, then
`entry["total_epa"] += HOME_FIELD_ADV` when the team is at home (lines
177-178), then every `_vs_opp` column set to 0 (lines 180-181). -/
def mkFeatures (team_baselines : String → Option (Col → ℚ))
    (recentMean : Col → ℚ) (team opp : String) (is_home : Bool) :
    PredEntry where
  base := fun col =>
    if is_home then
      if col = Col.total_epa then
        mkBase team_baselines recentMean team opp col + HOME_FIELD_ADV
      else mkBase team_baselines recentMean team opp col
    else mkBase team_baselines recentMean team opp col
  vsOpp := fun _ => 0

/-- A concrete two-team baseline table: A ↦ 10 on every column, B ↦ 4 on
every column, every other team absent. -/
def tbAB : String → Option (Col → ℚ) :=
  fun t => if t = "A" then some (fun _ => (10 : ℚ))
           else if t = "B" then some (fun _ => (4 : ℚ)) else none

/-- C4: the claim asserts that for a team present in the baseline table the
feature row's base columns equal the team's own baseline values.  In the
source each base column is `baseline - opp_adj`: with baselines A ↦ 10 and
B ↦ 4 the row for A against B holds 6, not 10 (the `_vs_opp` half of the
claim does hold). -/
theorem mkFeatures_base_ne_baseline :
    tbAB "A" = some (fun _ => (10 : ℚ)) ∧
    (mkFeatures tbAB (fun _ => 0) "A" "B" false).base Col.plays ≠ 10 := by
  constructor
  · simp [tbAB]
  · simp [mkFeatures, mkBase, tbAB]

/-- C4 (amended): for every upcoming schedule entry and team T present in
the TeamBaseline table, the feature row for T (before the home-field
adjustment, i.e. with `is_home = false`) has each base column equal to T's
baseline **minus the opponent's baseline** (0 when the opponent is absent
from the table), and every opponent-adjusted column equal to zero. -/
theorem mkFeatures_base_is_baseline_diff
    (team_baselines : String → Option (Col → ℚ)) (recentMean : Col → ℚ)
    (team opp : String) (b : Col → ℚ) (h : team_baselines team = some b) :
    (∀ col, (mkFeatures team_baselines recentMean team opp false).base col
      = b col - (match team_baselines opp with
                 | some bo => bo col
                 | none => 0)) ∧
    (∀ col, (mkFeatures team_baselines recentMean team opp false).vsOpp col
      = 0) := by
  constructor <;> intro col <;> simp [mkFeatures, mkBase, h]

/-- C4 witness: the amended rule on the two-team baseline table A ↦ 10,
B ↦ 4. -/
theorem mkFeatures_base_is_baseline_diff_witness :
    tbAB "A" = some (fun _ => (10 : ℚ)) ∧
    ((∀ col, (mkFeatures tbAB (fun _ => 0) "A" "B" false).base col
      = (fun _ => (10 : ℚ)) col
          - (match tbAB "B" with
             | some bo => bo col
             | none => 0)) ∧
     (∀ col, (mkFeatures tbAB (fun _ => 0) "A" "B" false).vsOpp col = 0)) :=
  ⟨by simp [tbAB],
   mkFeatures_base_is_baseline_diff tbAB _ "A" "B" (fun _ => (10 : ℚ))
     (by simp [tbAB])⟩

/-- C8: the fixed 2.5-point home-field constant is added to the home
team's `total_epa` feature only: the away row (`is_home = false`) is
exactly the unadjusted assignment, and on the home row every column other
than `total_epa` agrees with the unadjusted assignment while `total_epa`
is larger by exactly `HOME_FIELD_ADV = 5/2`; the `_vs_opp` columns are
untouched by the adjustment. -/
theorem mkFeatures_home_field_adv
    (team_baselines : String → Option (Col → ℚ)) (recentMean : Col → ℚ)
    (team opp : String) :
    HOME_FIELD_ADV = 5 / 2 ∧
    (∀ col, (mkFeatures team_baselines recentMean team opp false).base col
      = mkBase team_baselines recentMean team opp col) ∧
    (∀ col, (mkFeatures team_baselines recentMean team opp true).base col
      = (if col = Col.total_epa then
          mkBase team_baselines recentMean team opp col + HOME_FIELD_ADV
         else mkBase team_baselines recentMean team opp col)) ∧
    (∀ col, (mkFeatures team_baselines recentMean team opp true).vsOpp col
      = (mkFeatures team_baselines recentMean team opp false).vsOpp col) := by
  refine ⟨rfl, fun col => rfl, fun col => ?_, fun col => rfl⟩
  simp [mkFeatures]

/-! ## Game Aggregator (`build_game_level_df`, lines 18-52) -/

/-- One play, restricted to the fields that determine the grouping of
`build_game_level_df`; `posteam`/`defteam` are optional to model the
`dropna(subset=["posteam", "defteam"])` step (line 32), and `epa` stands
for the aggregated numeric columns. -/
structure Play where
  game_id : String
  season : ℤ
  week : ℤ
  posteam : Option String
  defteam : Option String
  epa : ℚ
deriving DecidableEq, Repr

/-- The `groupby` key `(game_id, season, week, posteam, defteam)`
(line 35). -/
structure GroupKey where
  game_id : String
  season : ℤ
  week : ℤ
  posteam : String
  defteam : String
deriving DecidableEq, Repr

/-- The group key of one play; `none` when the play is removed by the
`dropna` step. -/
def playKey (p : Play) : Option GroupKey :=
  match p.posteam, p.defteam with
  | some t, some d => some ⟨p.game_id, p.season, p.week, t, d⟩
  | _, _ => none

/-- One aggregated row of `build_game_level_df`; the `epa`-derived
aggregates (count, sum, mean on lines 37-39) stand for the full aggregate
list, all of which are per-group reductions of the same shape. -/
structure GameTeamStat where
  key : GroupKey
  plays : ℕ
  total_epa : ℚ
  avg_epa : ℚ
deriving DecidableEq, Repr

/-- The distinct group keys of the retained plays.  pandas orders groups
by sorted key; the claims below only count rows and inspect their fields,
so keys are kept in order of first occurrence. -/
def gameKeys (plays : List Play) : List GroupKey :=
  (plays.filterMap playKey).dedup

/-- The aggregated row for one group key. -/
def rowOfKey (plays : List Play) (k : GroupKey) : GameTeamStat :=
  let grp := plays.filter (fun p => playKey p = some k)
  ⟨k, grp.length, (grp.map Play.epa).sum, listMean (grp.map Play.epa)⟩

/-- `build_game_level_df` (lines 18-52): one aggregated row per group. -/
def build_game_level_df (plays : List Play) : List GameTeamStat :=
  (gameKeys plays).map (rowOfKey plays)

lemma playKey_game_id (p : Play) (k : GroupKey) (h : playKey p = some k) :
    k.game_id = p.game_id := by
  rw [playKey] at h
  rcases hp : p.posteam with _ | t <;> rcases hd : p.defteam with _ | d <;>
    rw [hp, hd] at h <;> simp at h
  rw [← h]

lemma nodup_pair_list {α : Type} (l : List α) (a b : α)
    (hn : l.Nodup) (hab : a ≠ b) (ha : a ∈ l) (hb : b ∈ l)
    (hsub : ∀ x ∈ l, x = a ∨ x = b) : l = [a, b] ∨ l = [b, a] := by
  match l with
  | [] => exact absurd ha (by simp)
  | [x] =>
    have h1 : a = x := by simpa using ha
    have h2 : b = x := by simpa using hb
    exact absurd (h1.trans h2.symm) hab
  | x :: y :: rest =>
    have hx : x = a ∨ x = b := hsub x (by simp)
    have hy : y = a ∨ y = b := hsub y (by simp)
    have hxy : x ≠ y := by
      intro he
      rw [List.nodup_cons] at hn
      exact hn.1 (he ▸ List.mem_cons_self y rest)
    have hrest : rest = [] := by
      rcases rest with _ | ⟨c, cs⟩
      · rfl
      · exfalso
        have hc : c = a ∨ c = b := hsub c (by simp)
        rw [List.nodup_cons, List.nodup_cons] at hn
        have hcx : c ≠ x := by
          intro he
          exact hn.1 (by simp [← he])
        have hcy : c ≠ y := by
          intro he
          exact hn.2.1 (by simp [← he])
        rcases hx with h1 | h1 <;> rcases hy with h2 | h2 <;>
          rcases hc with h3 | h3 <;>
            first
              | exact hxy (h1.trans h2.symm)
              | exact hcx (h3.trans h1.symm)
              | exact hcy (h3.trans h2.symm)
    subst hrest
    rcases hx with h1 | h1
    · have h2 : y = b := by
        rcases hy with h2 | h2
        · exact absurd (h1.trans h2.symm) hxy
        · exact h2
      left
      rw [h1, h2]
    · have h2 : y = a := by
        rcases hy with h2 | h2
        · exact h2
        · exact absurd (h1.trans h2.symm) hxy
      right
      rw [h1, h2]

/-- C9: the claim quantifies over **every** input play collection, but the
two-rows-per-game invariant depends on the input: a game whose plays all
have the same offensive team produces a single row.  Here game G1 appears
in the output but contributes one row, not two. -/
theorem build_game_level_not_always_two_rows :
    (build_game_level_df [⟨"G1", 2020, 1, some "A", some "B", 1⟩]).map
        (fun r => r.key.game_id) = ["G1"] ∧
    ((build_game_level_df [⟨"G1", 2020, 1, some "A", some "B", 1⟩]).filter
        (fun r => r.key.game_id = "G1")).length ≠ 2 := by
  constructor
  · rfl
  · decide

/-- C9 (amended): for a game g whose retained plays all carry one of the
two mirror keys (g, s, w, A, B) / (g, s, w, B, A) for two distinct teams
A ≠ B, with both orientations present, the Game Aggregator output has
exactly two GameTeamStat rows for g, and their (team, opponent) pairs are
mirror images of each other. -/
theorem build_game_level_two_mirror_rows (plays : List Play) (g : String)
    (s w : ℤ) (A B : String) (hAB : A ≠ B)
    (hmemAB : ∃ p ∈ plays, playKey p = some ⟨g, s, w, A, B⟩)
    (hmemBA : ∃ p ∈ plays, playKey p = some ⟨g, s, w, B, A⟩)
    (hall : ∀ p ∈ plays, p.game_id = g →
      playKey p = none ∨ playKey p = some ⟨g, s, w, A, B⟩ ∨
        playKey p = some ⟨g, s, w, B, A⟩) :
    ∃ r1 r2 : GameTeamStat,
      ((build_game_level_df plays).filter (fun r => r.key.game_id = g)
        = [r1, r2]) ∧
      r1.key.posteam = r2.key.defteam ∧ r1.key.defteam = r2.key.posteam ∧
      r1.key.posteam ≠ r2.key.posteam := by
  set k1 : GroupKey := ⟨g, s, w, A, B⟩ with hk1
  set k2 : GroupKey := ⟨g, s, w, B, A⟩ with hk2
  have hk12 : k1 ≠ k2 := by
    intro he
    exact hAB (congrArg GroupKey.posteam he)
  have hmemkeys : ∀ k : GroupKey, (∃ p ∈ plays, playKey p = some k) →
      k ∈ gameKeys plays := by
    intro k ⟨p, hp, hpk⟩
    rw [gameKeys, List.mem_dedup, List.mem_filterMap]
    exact ⟨p, hp, hpk⟩
  have hF : (gameKeys plays).filter (fun k => k.game_id = g) = [k1, k2] ∨
      (gameKeys plays).filter (fun k => k.game_id = g) = [k2, k1] := by
    apply nodup_pair_list _ k1 k2
    · exact (List.nodup_dedup _).filter _
    · exact hk12
    · rw [List.mem_filter]
      exact ⟨hmemkeys k1 hmemAB, by simp [hk1]⟩
    · rw [List.mem_filter]
      exact ⟨hmemkeys k2 hmemBA, by simp [hk2]⟩
    · intro k hk
      rw [List.mem_filter] at hk
      obtain ⟨hkmem, hkg⟩ := hk
      rw [gameKeys, List.mem_dedup, List.mem_filterMap] at hkmem
      obtain ⟨p, hp, hpk⟩ := hkmem
      have hgid : k.game_id = g := by simpa using hkg
      have hpg : p.game_id = g := (playKey_game_id p k hpk) ▸ hgid
      rcases hall p hp hpg with h0 | h1 | h2
      · rw [h0] at hpk; exact absurd hpk (by simp)
      · exact Or.inl (Option.some.inj (hpk.symm.trans h1))
      · exact Or.inr (Option.some.inj (hpk.symm.trans h2))
  have hfilter : (build_game_level_df plays).filter
        (fun r => r.key.game_id = g)
      = ((gameKeys plays).filter (fun k => k.game_id = g)).map
          (rowOfKey plays) := by
    rw [build_game_level_df, List.filter_map]
    rfl
  rcases hF with h | h
  · exact ⟨rowOfKey plays k1, rowOfKey plays k2,
      by rw [hfilter, h]; rfl, rfl, rfl, hAB⟩
  · refine ⟨rowOfKey plays k2, rowOfKey plays k1,
      by rw [hfilter, h]; rfl, rfl, rfl, ?_⟩
    exact fun he => hAB he.symm

/-- C9 witness: a two-play game with one offensive play per side yields
exactly two mirror rows. -/
theorem build_game_level_two_mirror_rows_witness :
    ("A" : String) ≠ "B" ∧
    (∃ p ∈ [(⟨"G1", 2020, 1, some "A", some "B", 1⟩ : Play),
            ⟨"G1", 2020, 1, some "B", some "A", 2⟩],
      playKey p = some ⟨"G1", 2020, 1, "A", "B"⟩) ∧
    (∃ p ∈ [(⟨"G1", 2020, 1, some "A", some "B", 1⟩ : Play),
            ⟨"G1", 2020, 1, some "B", some "A", 2⟩],
      playKey p = some ⟨"G1", 2020, 1, "B", "A"⟩) ∧
    (∃ r1 r2 : GameTeamStat,
      ((build_game_level_df [⟨"G1", 2020, 1, some "A", some "B", 1⟩,
          ⟨"G1", 2020, 1, some "B", some "A", 2⟩]).filter
        (fun r => r.key.game_id = "G1") = [r1, r2]) ∧
      r1.key.posteam = r2.key.defteam ∧ r1.key.defteam = r2.key.posteam ∧
      r1.key.posteam ≠ r2.key.posteam) :=
  ⟨by decide,
   ⟨⟨"G1", 2020, 1, some "A", some "B", 1⟩, by decide⟩,
   ⟨⟨"G1", 2020, 1, some "B", some "A", 2⟩, by decide⟩,
   build_game_level_two_mirror_rows _ "G1" 2020 1 "A" "B" (by decide)
     ⟨⟨"G1", 2020, 1, some "A", some "B", 1⟩, by decide⟩
     ⟨⟨"G1", 2020, 1, some "B", some "A", 2⟩, by decide⟩ (by decide)⟩

/-! ## Projected winner (`final_preds["projected_winner"]`, lines 221-222) -/

/-- `np.where(home_pred_score > away_pred_score, home_team, away_team)`
applied to one game row. -/
def projected_winner (home_team away_team : String)
    (home_pred away_pred : ℚ) : String :=
  if home_pred > away_pred then home_team else away_team

/-- C10: when the two predicted scores are equal the projected winner is
the away team, and (for distinct team names) the home team is the
projected winner exactly when its predicted score is strictly greater. -/
theorem projected_winner_spec (home_team away_team : String)
    (home_pred away_pred : ℚ) (hne : home_team ≠ away_team) :
    (home_pred = away_pred →
      projected_winner home_team away_team home_pred away_pred = away_team) ∧
    (projected_winner home_team away_team home_pred away_pred = home_team
      ↔ away_pred < home_pred) := by
  constructor
  · intro heq
    rw [projected_winner, if_neg]
    rw [heq]
    exact lt_irrefl _
  · constructor
    · intro hw
      by_contra hlt
      rw [projected_winner, if_neg hlt] at hw
      exact hne hw.symm
    · intro hlt
      rw [projected_winner, if_pos hlt]

/-- C10 witness: a tied 10-10 game between distinct teams goes to the away
team. -/
theorem projected_winner_spec_witness :
    ("H" : String) ≠ "A" ∧
    (((10 : ℚ) = 10 →
      projected_winner "H" "A" 10 10 = "A") ∧
     (projected_winner "H" "A" 10 10 = "H" ↔ (10 : ℚ) < 10)) :=
  ⟨by decide, projected_winner_spec "H" "A" 10 10 (by decide)⟩

end NFLPred
